import Mathlib

/-!
Verification of the SyntheticControlMethods panel-ingestion engine
(`synth/main.py`).  The estimator's ingestion stage (`Synth._process_input_data`
and its two helpers) is embedded shallowly: a pandas long-format dataset
becomes a list of typed rows plus the column-name list, numpy 2-d arrays
become a `Mat` structure carrying shape metadata, and numpy `reshape`
failures are surfaced through `Except`.
-/

set_option maxHeartbeats 1000000

namespace Synth

/-- One observation (row) of the long-format panel: unit id, time period,
outcome value, and the covariate values in column order. -/
structure Row where
  id : String
  time : Int
  outcome : ℚ
  covs : List ℚ
deriving DecidableEq

/-- A long-format dataset: the column names in source order plus the rows.
The id, time and outcome values of a row are typed fields; the remaining
(covariate) columns hold the `covs` list, aligned with the covariate columns
in source order. -/
structure DataFrame where
  columns : List String
  rows : List Row
deriving DecidableEq

/-- A numpy-style 2-d array: shape metadata plus row-major entries. -/
structure Mat where
  nrows : Nat
  ncols : Nat
  entries : List (List ℚ)
deriving DecidableEq

/-- numpy transpose of a 2-d array. -/
def Mat.transpose (m : Mat) : Mat :=
  ⟨m.ncols, m.nrows, (List.range m.ncols).map (fun j => m.entries.map (fun row => row.getD j 0))⟩

/-- Arithmetic mean of a list of rationals.  pandas returns NaN for the mean
of an empty selection; NaN is not representable in `ℚ` and the empty case is
modelled as 0 (no claim inspects values produced from an empty selection,
only whether an exception is raised, and `mean` never raises). -/
def mean (xs : List ℚ) : ℚ := xs.sum / xs.length

/-- Split a flat list into `r` consecutive rows of `c` entries each. -/
def chunkRows (r c : Nat) (xs : List ℚ) : List (List ℚ) :=
  match r with
  | 0 => []
  | r + 1 => xs.take c :: chunkRows r c (xs.drop c)

/-- numpy `reshape` to a 2-d shape: succeeds exactly when the total size
matches, with a single `-1` dimension inferred when the other dimension is
positive and divides the length; any other negative dimension is an error. -/
def reshape2 (xs : List ℚ) (r c : Int) : Except String Mat :=
  if r = -1 then
    if 0 < c ∧ c.toNat ∣ xs.length then
      .ok ⟨xs.length / c.toNat, c.toNat, chunkRows (xs.length / c.toNat) c.toNat xs⟩
    else .error "ValueError: cannot reshape"
  else if c = -1 then
    if 0 < r ∧ r.toNat ∣ xs.length then
      .ok ⟨r.toNat, xs.length / r.toNat, chunkRows r.toNat (xs.length / r.toNat) xs⟩
    else .error "ValueError: cannot reshape"
  else if 0 ≤ r ∧ 0 ≤ c ∧ xs.length = r.toNat * c.toNat then
    .ok ⟨r.toNat, c.toNat, chunkRows r.toNat c.toNat xs⟩
  else .error "ValueError: cannot reshape"

/-- pandas `frame[covariates].mean(axis=0)`: the mean of each covariate
column over the given rows. -/
def colMeans (k : Nat) (rows : List Row) : List ℚ :=
  (List.range k).map (fun j => mean (rows.map (fun r => r.covs.getD j 0)))

/-- Groups of `p` consecutive rows, as produced by indexing with
`np.arange(len) // p` and grouping on the index: for `p > 0` the successive
chunks of `p` rows (a shorter final chunk when `p` does not divide the
length); numpy floor division by zero yields index 0 for every row, so for
`p = 0` all rows fall into a single group. -/
def chunksOf (p : Nat) : List Row → List (List Row)
  | [] => []
  | x :: xs =>
    if p = 0 then [x :: xs]
    else (x :: xs.take (p - 1)) :: chunksOf p (xs.drop (p - 1))
termination_by l => l.length
decreasing_by
  simp only [List.length_drop, List.length_cons]
  omega

/-- pandas `set_index(np.arange(len) // p).mean(level=0)`: per-group mean of
each covariate column, group keys ascending (= order of appearance here). -/
def groupMeans (p k : Nat) (rows : List Row) : List (List ℚ) :=
  (chunksOf p rows).map (fun grp => colMeans k grp)

/-- Line 126: every column that is not the outcome, id or time column is a
covariate, in source column order. -/
def covariateCols (df : DataFrame) (outcome_var id_var time_var : String) : List String :=
  df.columns.filter (fun c => ¬ (c = outcome_var ∨ c = id_var ∨ c = time_var))

/-- Line 130: `dataset[time_var].nunique()`, the number of distinct time values. -/
def periodsAll (df : DataFrame) : Nat := (df.rows.map Row.time).toFinset.card

/-- Line 131: the number of distinct time values strictly before the
treatment period. -/
def periodsPre (df : DataFrame) (treatment_period : Int) : Nat :=
  ((df.rows.filter (fun r => r.time < treatment_period)).map Row.time).toFinset.card

/-- Line 133: `dataset[id_var].nunique() - 1` (Python subtraction, so the
result is `-1` on a dataset with no rows). -/
def nControls (df : DataFrame) : Int := ((df.rows.map Row.id).toFinset.card : Int) - 1

/-- `Synth._process_treated_data` (lines 170-186): select the treated unit's
rows, reshape the outcomes to columns, and average the covariates over the
pre-treatment rows.  Boolean-mask indexing with the full dataset's mask
(line 180) aligns on the row index, i.e. filters the treated rows by their
own time value. -/
def process_treated_data (df : DataFrame) (treatment_period : Int) (treated_unit : String)
    (periods_all periods_pre_treatment n_covariates : Nat) :
    Except String (Mat × Mat × Mat) := do
  let treated_data_all := df.rows.filter (fun r => r.id = treated_unit)
  let treated_outcome_all ← reshape2 (treated_data_all.map Row.outcome) (periods_all : Int) 1
  let treated_data := treated_data_all.filter (fun r => r.time < treatment_period)
  let treated_outcome ← reshape2 (treated_data.map Row.outcome) (periods_pre_treatment : Int) 1
  let treated_covariates ← reshape2 (colMeans n_covariates treated_data) (n_covariates : Int) 1
  return (treated_outcome_all, treated_outcome, treated_covariates)

/-- `Synth._process_control_data` (lines 189-211): select all non-treated
rows, reshape the outcomes to `(n_controls, periods)` and transpose, and
take per-unit covariate means by grouping every `periods_pre_treatment`
consecutive pre-treatment rows into one unit. -/
def process_control_data (df : DataFrame) (treatment_period : Int) (treated_unit : String)
    (n_controls : Int) (periods_all periods_pre_treatment n_covariates : Nat) :
    Except String (Mat × Mat × Mat) := do
  let control_data_all := df.rows.filter (fun r => ¬ r.id = treated_unit)
  let m_all ← reshape2 (control_data_all.map Row.outcome) n_controls (periods_all : Int)
  let control_outcome_all := m_all.transpose
  let control_data := control_data_all.filter (fun r => r.time < treatment_period)
  let m_pre ← reshape2 (control_data.map Row.outcome) n_controls (periods_pre_treatment : Int)
  let control_outcome := m_pre.transpose
  let control_covariates :=
    (Mat.mk (chunksOf periods_pre_treatment control_data).length n_covariates
      (groupMeans periods_pre_treatment n_covariates control_data)).transpose
  return (control_outcome_all, control_outcome, control_covariates)

/-- The processed variables returned by `Synth._process_input_data` and held
by `SynthBase` (the Matrix Store): the input dataset, the derived covariate
list and dimension scalars, and the six matrices. -/
structure SynthData where
  dataset : DataFrame
  covariates : List String
  periods_all : Nat
  periods_pre_treatment : Nat
  n_controls : Int
  n_covariates : Nat
  treated_outcome_all : Mat
  treated_outcome : Mat
  treated_covariates : Mat
  control_outcome_all : Mat
  control_outcome : Mat
  control_covariates : Mat
deriving DecidableEq

/-- `Synth._process_input_data` (lines 120-168): derive the covariate list
and the dimension scalars, build the treated and control matrices, and
return the populated store. -/
def process_input_data (df : DataFrame) (outcome_var id_var time_var : String)
    (treatment_period : Int) (treated_unit : String) : Except String SynthData := do
  let covariates := covariateCols df outcome_var id_var time_var
  let periods_all := periodsAll df
  let periods_pre_treatment := periodsPre df treatment_period
  let n_controls := nControls df
  let n_covariates := covariates.length
  let (treated_outcome_all, treated_outcome, treated_covariates) ←
    process_treated_data df treatment_period treated_unit periods_all periods_pre_treatment
      n_covariates
  let (control_outcome_all, control_outcome, control_covariates) ←
    process_control_data df treatment_period treated_unit n_controls periods_all
      periods_pre_treatment n_covariates
  return ⟨df, covariates, periods_all, periods_pre_treatment, n_controls, n_covariates,
    treated_outcome_all, treated_outcome, treated_covariates,
    control_outcome_all, control_outcome, control_covariates⟩

/-- The per-unit mean-subtraction that line 222 of `transform_data` computes
into `mean_subtract_cols` (groupby on the id column, subtract each column's
group mean; the time column is dropped from the result, which is immaterial
here because line 223 discards the value before it is ever returned). -/
def meanSubtractCols (df : DataFrame) : List Row :=
  df.rows.map (fun r =>
    let grp := df.rows.filter (fun r2 => r2.id = r.id)
    { r with
      outcome := r.outcome - mean (grp.map Row.outcome),
      covs := (List.range r.covs.length).map
        (fun j => r.covs.getD j 0 - mean (grp.map (fun r2 => r2.covs.getD j 0))) })

/-- `Synth.transform_data` (lines 213-223): line 222 computes the
mean-subtracted columns, and line 223 then evaluates `data[["ID", "Time"]]`
where the name `data` is not defined in any enclosing scope, so the method
unconditionally raises `NameError` instead of returning the transformed
panel. -/
def transform_data (s : SynthData) : Except String DataFrame :=
  let _mean_subtract_cols := meanSubtractCols s.dataset
  .error "NameError: name data is not defined"

/-! ### Rectangular sorted panels

A rectangular panel sorted by unit then time is exactly a row list of the
form `mkRows units times f g` with distinct units, strictly ascending times,
one row per (unit, time) pair: unit-major, time-minor order. -/

/-- The rows of a rectangular panel sorted by unit then time: for each unit
`u` (in order) one row per time `t` (in order) with outcome `f u t` and
covariate values `g u t`. -/
def mkRows (units : List String) (times : List Int)
    (f : String → Int → ℚ) (g : String → Int → List ℚ) : List Row :=
  units.flatMap (fun u => times.map (fun t => ⟨u, t, f u t, g u t⟩))

/-- A rectangular sorted panel as a dataset with the given column names. -/
def mkDF (cols : List String) (units : List String) (times : List Int)
    (f : String → Int → ℚ) (g : String → Int → List ℚ) : DataFrame :=
  ⟨cols, mkRows units times f g⟩

/-! ### Weight solver

`synth/main.py` imports the solver stage (`from synth.inferences import
Inferences`, mixed into `SynthBase`) but that module is not part of the
source tree; the solver is modelled from the specification. -/

/-- Dot product of two coordinate lists. -/
def dot (xs ys : List ℚ) : ℚ := (xs.zip ys).foldl (fun a p => a + p.1 * p.2) 0

/-- Modelled from the spec: the inner objective of the missing
`synth.inferences` weight solver, the V-weighted covariate imbalance
`(X1 - X0 W)ᵗ V (X1 - X0 W)` for a diagonal importance matrix `V` (given by
its diagonal), `X1` given as the list of treated covariate means and `X0` as
its rows (one list of control values per covariate). -/
def lossV (V X1 : List ℚ) (X0 : List (List ℚ)) (W : List ℚ) : ℚ :=
  ((V.zip (X1.zip X0)).map (fun p => p.1 * (p.2.1 - dot p.2.2 W) ^ 2)).sum

/-- Modelled from the spec: coordinate `i` of the gradient of `lossV` in `W`. -/
def gradW (V X1 : List ℚ) (X0 : List (List ℚ)) (W : List ℚ) (i : Nat) : ℚ :=
  ((V.zip (X1.zip X0)).map
    (fun p => 2 * p.1 * (dot p.2.2 W - p.2.1) * (p.2.2.getD i 0))).sum

/-- Index of the smallest of `f 0, ..., f (n-1)` (first such index). -/
def argminIdx (f : Nat → ℚ) (n : Nat) : Nat :=
  (List.range n).foldl (fun best i => if f i < f best then i else best) 0

/-- One Frank-Wolfe update on the probability simplex: starting at
coordinate index `i`, replace each weight `w` at index `j` by
`(1 - γ) * w + γ * [j = iStar]`, i.e. move towards the vertex `iStar`. -/
def fwStep (γ : ℚ) (iStar : Nat) : Nat → List ℚ → List ℚ
  | _, [] => []
  | i, w :: ws => ((1 - γ) * w + if i = iStar then γ else 0) :: fwStep γ iStar (i + 1) ws

/-- Modelled from the spec: the missing `synth.inferences` weight solver
`solve_weights(Z1, Z0, X1, X0, V) -> (W, loss)`.  The spec fixes the
contract (minimise `lossV` subject to `W ≥ 0`, `sum(W) = 1`, enforced
exactly; deterministic start at uniform weights `1/N`) and leaves the
algorithm free; modelled as Frank-Wolfe on the simplex with step size
`2 / (k + 2)`, which keeps every iterate exactly on the simplex. -/
def solve_weights (X1 : List ℚ) (X0 : List (List ℚ)) (V : List ℚ)
    (n iters : Nat) : List ℚ × ℚ :=
  let W0 : List ℚ := List.replicate n (1 / (n : ℚ))
  let W := (List.range iters).foldl
    (fun (W : List ℚ) (k : Nat) =>
      fwStep (2 / ((k : ℚ) + 2)) (argminIdx (gradW V X1 X0 W) n) 0 W) W0
  (W, lossV V X1 X0 W)

/-! ### Structure lemmas about rectangular sorted panels -/

theorem mkRows_cons (u : String) (us : List String) (ts : List Int)
    (f : String → Int → ℚ) (g : String → Int → List ℚ) :
    mkRows (u :: us) ts f g
      = ts.map (fun t => ⟨u, t, f u t, g u t⟩) ++ mkRows us ts f g := by
  simp [mkRows]

theorem block_filter_id (u treated : String) (ts : List Int)
    (f : String → Int → ℚ) (g : String → Int → List ℚ) :
    (ts.map (fun t => (⟨u, t, f u t, g u t⟩ : Row))).filter (fun r => r.id = treated)
      = if u = treated then ts.map (fun t => ⟨u, t, f u t, g u t⟩) else [] := by
  by_cases h : u = treated
  · subst h
    simp [List.filter_map, Function.comp_def]
  · simp [List.filter_map, Function.comp_def, h]

theorem mkRows_filter_id_not_mem (treated : String) (us : List String) (ts : List Int)
    (f : String → Int → ℚ) (g : String → Int → List ℚ) (h : treated ∉ us) :
    (mkRows us ts f g).filter (fun r => r.id = treated) = [] := by
  induction us with
  | nil => rfl
  | cons u us ih =>
    have hne : u ≠ treated := fun e => h (e ▸ List.mem_cons_self u us)
    rw [mkRows_cons, List.filter_append, block_filter_id, if_neg hne,
      ih (fun hm => h (List.mem_cons_of_mem u hm))]
    rfl

theorem mkRows_filter_id (treated : String) (us : List String) (ts : List Int)
    (f : String → Int → ℚ) (g : String → Int → List ℚ)
    (hU : us.Nodup) (hMem : treated ∈ us) :
    (mkRows us ts f g).filter (fun r => r.id = treated)
      = ts.map (fun t => ⟨treated, t, f treated t, g treated t⟩) := by
  induction us with
  | nil => cases hMem
  | cons u us ih =>
    rw [mkRows_cons, List.filter_append, block_filter_id]
    rcases List.mem_cons.mp hMem with h | h
    · subst h
      rw [if_pos rfl, mkRows_filter_id_not_mem _ _ _ _ _ (List.nodup_cons.mp hU).1,
        List.append_nil]
    · have hne : u ≠ treated := fun e => (List.nodup_cons.mp hU).1 (e ▸ h)
      rw [if_neg hne, List.nil_append, ih (List.nodup_cons.mp hU).2 h]

theorem block_filter_id_ne (u treated : String) (ts : List Int)
    (f : String → Int → ℚ) (g : String → Int → List ℚ) :
    (ts.map (fun t => (⟨u, t, f u t, g u t⟩ : Row))).filter (fun r => ¬ r.id = treated)
      = if u = treated then [] else ts.map (fun t => ⟨u, t, f u t, g u t⟩) := by
  by_cases h : u = treated
  · subst h
    simp [List.filter_map, Function.comp_def]
  · simp [List.filter_map, Function.comp_def, h]

theorem mkRows_filter_id_ne (treated : String) (us : List String) (ts : List Int)
    (f : String → Int → ℚ) (g : String → Int → List ℚ) :
    (mkRows us ts f g).filter (fun r => ¬ r.id = treated)
      = mkRows (us.filter (fun u => ¬ u = treated)) ts f g := by
  induction us with
  | nil => rfl
  | cons u us ih =>
    rw [mkRows_cons, List.filter_append, block_filter_id_ne, List.filter_cons, ih]
    by_cases h : u = treated
    · simp [h]
    · simp only [h, if_false]
      rw [if_pos (by simp [h]), mkRows_cons]

theorem block_filter_time (u : String) (ts : List Int) (tp : Int)
    (f : String → Int → ℚ) (g : String → Int → List ℚ) :
    (ts.map (fun t => (⟨u, t, f u t, g u t⟩ : Row))).filter (fun r => r.time < tp)
      = (ts.filter (fun t => t < tp)).map (fun t => ⟨u, t, f u t, g u t⟩) := by
  rw [List.filter_map]
  rfl

theorem mkRows_filter_time (us : List String) (ts : List Int) (tp : Int)
    (f : String → Int → ℚ) (g : String → Int → List ℚ) :
    (mkRows us ts f g).filter (fun r => r.time < tp)
      = mkRows us (ts.filter (fun t => t < tp)) f g := by
  induction us with
  | nil => rfl
  | cons u us ih =>
    rw [mkRows_cons, List.filter_append, ih, block_filter_time, mkRows_cons]

theorem block_map_outcome (u : String) (ts : List Int)
    (f : String → Int → ℚ) (g : String → Int → List ℚ) :
    (ts.map (fun t => (⟨u, t, f u t, g u t⟩ : Row))).map Row.outcome = ts.map (f u) := by
  rw [List.map_map]
  rfl

theorem mkRows_map_outcome (us : List String) (ts : List Int)
    (f : String → Int → ℚ) (g : String → Int → List ℚ) :
    (mkRows us ts f g).map Row.outcome = us.flatMap (fun u => ts.map (f u)) := by
  simp only [mkRows, List.map_flatMap, List.map_map]
  rfl

theorem mkRows_length (us : List String) (ts : List Int)
    (f : String → Int → ℚ) (g : String → Int → List ℚ) :
    (mkRows us ts f g).length = us.length * ts.length := by
  induction us with
  | nil => simp [mkRows]
  | cons u us ih => simp [mkRows_cons, ih, Nat.succ_mul, Nat.add_comm]

theorem mkRows_map_time (us : List String) (ts : List Int)
    (f : String → Int → ℚ) (g : String → Int → List ℚ) :
    (mkRows us ts f g).map Row.time = us.flatMap (fun _ => ts) := by
  simp [mkRows, List.map_flatMap, List.map_map, Function.comp_def]

theorem flatMap_const_toFinset (us : List String) (ts : List Int) (hus : us ≠ []) :
    (us.flatMap (fun _ => ts)).toFinset = ts.toFinset := by
  induction us with
  | nil => exact absurd rfl hus
  | cons u us ih =>
    rw [List.flatMap_cons, List.toFinset_append]
    cases us with
    | nil => simp
    | cons v vs => rw [ih (by simp)]; exact Finset.union_self _

theorem mkRows_map_id (us : List String) (ts : List Int)
    (f : String → Int → ℚ) (g : String → Int → List ℚ) :
    (mkRows us ts f g).map Row.id = us.flatMap (fun u => List.replicate ts.length u) := by
  simp only [mkRows, List.map_flatMap, List.map_map]
  refine List.flatMap_congr ?_  -- pointwise
  intro u _
  exact List.map_const ts u

theorem mkRows_id_toFinset (us : List String) (ts : List Int)
    (f : String → Int → ℚ) (g : String → Int → List ℚ) (hts : ts ≠ []) :
    ((mkRows us ts f g).map Row.id).toFinset = us.toFinset := by
  rw [mkRows_map_id]
  induction us with
  | nil => rfl
  | cons u us ih =>
    rw [List.flatMap_cons, List.toFinset_append, ih, List.toFinset_cons,
      List.toFinset_replicate_of_ne_zero (by simpa using hts)]
    exact (Finset.insert_eq u us.toFinset).symm

theorem chunkRows_singleton (xs : List ℚ) :
    chunkRows xs.length 1 xs = xs.map (fun q => [q]) := by
  induction xs with
  | nil => rfl
  | cons x xs ih => simp [chunkRows, List.take, List.drop, ih]

theorem chunkRows_flatMap (us : List String) (bl : String → List ℚ) (p : Nat)
    (h : ∀ u ∈ us, (bl u).length = p) :
    chunkRows us.length p (us.flatMap bl) = us.map bl := by
  induction us with
  | nil => rfl
  | cons u us ih =>
    rw [List.flatMap_cons, List.length_cons, chunkRows,
      ← h u (List.mem_cons_self u us), List.take_left, List.drop_left,
      h u (List.mem_cons_self u us), ih (fun v hv => h v (List.mem_cons_of_mem u hv))]
    rfl

theorem chunksOf_flatMap (us : List String) (bl : String → List Row) (p : Nat)
    (hp : 0 < p) (h : ∀ u ∈ us, (bl u).length = p) :
    chunksOf p (us.flatMap bl) = us.map bl := by
  induction us with
  | nil => simp [chunksOf]
  | cons u us ih =>
    rw [List.flatMap_cons]
    have hu : (bl u).length = p := h u (List.mem_cons_self u us)
    obtain ⟨x, xs, e⟩ : ∃ x xs, bl u = x :: xs := by
      cases hbl : bl u with
      | nil => rw [hbl] at hu; simp at hu; omega
      | cons x xs => exact ⟨x, xs, rfl⟩
    rw [e, List.cons_append, chunksOf, if_neg (by omega)]
    have hxs : xs.length = p - 1 := by
      rw [e] at hu; simp at hu; omega
    rw [← hxs, List.take_left, List.drop_left,
      ih (fun v hv => h v (List.mem_cons_of_mem u hv)), ← e]
    rfl

theorem sorted_filter_take (ts : List Int) (tp : Int) (hs : ts.Sorted (· < ·)) :
    ts.filter (fun t => t < tp) = ts.take ((ts.filter (fun t => t < tp)).length) := by
  induction ts with
  | nil => rfl
  | cons t ts ih =>
    rw [List.filter_cons]
    rcases List.sorted_cons.mp hs with ⟨hall, hrest⟩
    by_cases h : t < tp
    · rw [if_pos (by simpa using h), List.length_cons, List.take_succ_cons, ← ih hrest]
    · have hnil : ts.filter (fun t => t < tp) = [] := by
        rw [List.filter_eq_nil_iff]
        intro x hx
        simp only [decide_eq_true_eq]
        have := hall x hx
        omega
      rw [if_neg (by simpa using h), hnil]
      rfl

theorem filter_ne_length (us : List String) (treated : String)
    (hU : us.Nodup) (hMem : treated ∈ us) :
    (us.filter (fun u => ¬ u = treated)).length = us.length - 1 := by
  induction us with
  | nil => cases hMem
  | cons u us ih =>
    rw [List.filter_cons]
    rcases List.mem_cons.mp hMem with h | h
    · subst h
      rw [if_neg (by simp)]
      have he : us.filter (fun u => ¬ u = treated) = us := by
        rw [List.filter_eq_self]
        intro v hv
        have hv2 : v ≠ treated := fun e => (List.nodup_cons.mp hU).1 (e ▸ hv)
        simpa using hv2
      rw [he]
      simp
    · have hne : u ≠ treated := fun e => (List.nodup_cons.mp hU).1 (e ▸ h)
      rw [if_pos (by simpa using hne)]
      have hlen : 0 < us.length := List.length_pos.mpr (fun e => by simp [e] at h)
      simp only [List.length_cons, ih (List.nodup_cons.mp hU).2 h]
      omega

/-! ### Evaluation of the ingestion functions on rectangular sorted panels -/

theorem reshape2_col_ok (xs : List ℚ) (r : Nat) (h : xs.length = r) :
    reshape2 xs (r : Int) 1 = .ok ⟨r, 1, chunkRows r 1 xs⟩ := by
  unfold reshape2
  rw [if_neg (by omega), if_neg (by omega), if_pos]
  · simp
  · refine ⟨Int.natCast_nonneg r, by omega, ?_⟩
    simpa using h

theorem reshape2_col_map {α : Type} (ls : List α) (h : α → ℚ) :
    reshape2 (ls.map h) ((ls.length : Nat) : Int) 1
      = .ok ⟨ls.length, 1, ls.map (fun x => [h x])⟩ := by
  have hh := chunkRows_singleton (ls.map h)
  rw [List.length_map] at hh
  rw [reshape2_col_ok _ _ (by simp), hh, List.map_map]
  rfl

theorem reshape2_int_ok (xs : List ℚ) (n : Int) (p : Nat) (hn : 0 ≤ n)
    (h : xs.length = n.toNat * p) :
    reshape2 xs n (p : Int) = .ok ⟨n.toNat, p, chunkRows n.toNat p xs⟩ := by
  unfold reshape2
  rw [if_neg (by omega), if_neg (by omega), if_pos]
  · simp
  · exact ⟨hn, Int.natCast_nonneg p, by simpa using h⟩

theorem getD_range_map (K j : Nat) (F : Nat → ℚ) (hj : j < K) :
    ((List.range K).map F).getD j 0 = F j := by
  rw [List.getD_eq_getElem?_getD, List.getElem?_map, List.getElem?_range hj]
  rfl

theorem process_treated_eval (cols : List String) (us : List String) (ts : List Int)
    (f : String → Int → ℚ) (g : String → Int → List ℚ) (tp : Int) (treated : String)
    (K : Nat) (hU : us.Nodup) (hMem : treated ∈ us) :
    process_treated_data (mkDF cols us ts f g) tp treated ts.length
      (ts.filter (fun t => t < tp)).length K
      = .ok (⟨ts.length, 1, ts.map (fun t => [f treated t])⟩,
        ⟨(ts.filter (fun t => t < tp)).length, 1,
          (ts.filter (fun t => t < tp)).map (fun t => [f treated t])⟩,
        ⟨K, 1, (List.range K).map (fun j =>
          [mean ((ts.filter (fun t => t < tp)).map (fun t => (g treated t).getD j 0))])⟩) := by
  have e1 : (mkDF cols us ts f g).rows.filter (fun r => r.id = treated)
      = ts.map (fun t => (⟨treated, t, f treated t, g treated t⟩ : Row)) :=
    mkRows_filter_id treated us ts f g hU hMem
  have e2 : (ts.map (fun t => (⟨treated, t, f treated t, g treated t⟩ : Row))).filter
        (fun r => r.time < tp)
      = (ts.filter (fun t => t < tp)).map (fun t => ⟨treated, t, f treated t, g treated t⟩) :=
    block_filter_time treated ts tp f g
  have r1 : reshape2
        ((ts.map (fun t => (⟨treated, t, f treated t, g treated t⟩ : Row))).map Row.outcome)
        ((ts.length : Nat) : Int) 1
      = .ok ⟨ts.length, 1, ts.map (fun t => [f treated t])⟩ := by
    rw [block_map_outcome]
    have := reshape2_col_map ts (f treated)
    simpa using this
  have r2 : reshape2
        (((ts.filter (fun t => t < tp)).map
          (fun t => (⟨treated, t, f treated t, g treated t⟩ : Row))).map Row.outcome)
        (((ts.filter (fun t => t < tp)).length : Nat) : Int) 1
      = .ok ⟨(ts.filter (fun t => t < tp)).length, 1,
          (ts.filter (fun t => t < tp)).map (fun t => [f treated t])⟩ := by
    rw [block_map_outcome]
    have := reshape2_col_map (ts.filter (fun t => t < tp)) (f treated)
    simpa using this
  have r3 : reshape2
        (colMeans K ((ts.filter (fun t => t < tp)).map
          (fun t => (⟨treated, t, f treated t, g treated t⟩ : Row))))
        ((K : Nat) : Int) 1
      = .ok ⟨K, 1, (List.range K).map (fun j =>
          [mean ((ts.filter (fun t => t < tp)).map (fun t => (g treated t).getD j 0))])⟩ := by
    have := reshape2_col_map (List.range K)
      (fun j => mean ((ts.filter (fun t => t < tp)).map (fun t => (g treated t).getD j 0)))
    rw [List.length_range] at this
    have harg : colMeans K ((ts.filter (fun t => t < tp)).map
          (fun t => (⟨treated, t, f treated t, g treated t⟩ : Row)))
        = (List.range K).map
            (fun j => mean ((ts.filter (fun t => t < tp)).map (fun t => (g treated t).getD j 0))) := by
      unfold colMeans
      refine List.map_congr_left ?_
      intro j _
      rw [List.map_map]
      rfl
    rw [harg, this]
  unfold process_treated_data
  simp only [e1, e2, r1, r2, r3]
  rfl

theorem process_control_eval (cols : List String) (us : List String) (ts : List Int)
    (f : String → Int → ℚ) (g : String → Int → List ℚ) (tp : Int) (treated : String)
    (K : Nat) (hpre : ts.filter (fun t => t < tp) ≠ []) :
    process_control_data (mkDF cols us ts f g) tp treated
      (((us.filter (fun u => ¬ u = treated)).length : Nat) : Int) ts.length
      (ts.filter (fun t => t < tp)).length K
      = .ok ((Mat.mk (us.filter (fun u => ¬ u = treated)).length ts.length
            ((us.filter (fun u => ¬ u = treated)).map (fun u => ts.map (f u)))).transpose,
        (Mat.mk (us.filter (fun u => ¬ u = treated)).length
            (ts.filter (fun t => t < tp)).length
            ((us.filter (fun u => ¬ u = treated)).map
              (fun u => (ts.filter (fun t => t < tp)).map (f u)))).transpose,
        (Mat.mk (us.filter (fun u => ¬ u = treated)).length K
            ((us.filter (fun u => ¬ u = treated)).map
              (fun u => (List.range K).map (fun j =>
                mean ((ts.filter (fun t => t < tp)).map
                  (fun t => (g u t).getD j 0)))))).transpose) := by
  set ctrls := us.filter (fun u => ¬ u = treated) with hctrls
  set pre := ts.filter (fun t => t < tp) with hpredef
  have e3 : (mkDF cols us ts f g).rows.filter (fun r => ¬ r.id = treated)
      = mkRows ctrls ts f g := mkRows_filter_id_ne treated us ts f g
  have e4 : (mkRows ctrls ts f g).filter (fun r => r.time < tp) = mkRows ctrls pre f g :=
    mkRows_filter_time ctrls ts tp f g
  have hlen4 : ((mkRows ctrls ts f g).map Row.outcome).length
      = ((ctrls.length : Nat) : Int).toNat * ts.length := by
    rw [List.length_map, mkRows_length, Int.toNat_natCast]
  have r4 : reshape2 ((mkRows ctrls ts f g).map Row.outcome)
        ((ctrls.length : Nat) : Int) ((ts.length : Nat) : Int)
      = .ok ⟨ctrls.length, ts.length, ctrls.map (fun u => ts.map (f u))⟩ := by
    rw [reshape2_int_ok _ _ _ (Int.natCast_nonneg _) hlen4, Int.toNat_natCast,
      mkRows_map_outcome,
      chunkRows_flatMap ctrls (fun u => ts.map (f u)) ts.length
        (fun u _ => List.length_map ts (f u))]
  have hlen5 : ((mkRows ctrls pre f g).map Row.outcome).length
      = ((ctrls.length : Nat) : Int).toNat * pre.length := by
    rw [List.length_map, mkRows_length, Int.toNat_natCast]
  have r5 : reshape2 ((mkRows ctrls pre f g).map Row.outcome)
        ((ctrls.length : Nat) : Int) ((pre.length : Nat) : Int)
      = .ok ⟨ctrls.length, pre.length, ctrls.map (fun u => pre.map (f u))⟩ := by
    rw [reshape2_int_ok _ _ _ (Int.natCast_nonneg _) hlen5, Int.toNat_natCast,
      mkRows_map_outcome,
      chunkRows_flatMap ctrls (fun u => pre.map (f u)) pre.length
        (fun u _ => List.length_map pre (f u))]
  have cc : chunksOf pre.length (mkRows ctrls pre f g)
      = ctrls.map (fun u => pre.map (fun t => (⟨u, t, f u t, g u t⟩ : Row))) := by
    refine chunksOf_flatMap ctrls _ pre.length (List.length_pos.mpr hpre) ?_
    intro u _
    exact List.length_map pre _
  have gm : groupMeans pre.length K (mkRows ctrls pre f g)
      = ctrls.map (fun u => (List.range K).map
          (fun j => mean (pre.map (fun t => (g u t).getD j 0)))) := by
    unfold groupMeans
    rw [cc, List.map_map]
    refine List.map_congr_left ?_
    intro u _
    unfold colMeans
    simp only [Function.comp_apply]
    refine List.map_congr_left ?_
    intro j _
    rw [List.map_map]
    rfl
  unfold process_control_data
  simp only [e3, e4, r4, r5, cc, gm, List.length_map]
  rfl

theorem periodsAll_mkDF (cols : List String) (us : List String) (ts : List Int)
    (f : String → Int → ℚ) (g : String → Int → List ℚ)
    (hus : us ≠ []) (hnd : ts.Nodup) :
    periodsAll (mkDF cols us ts f g) = ts.length := by
  unfold periodsAll
  rw [show (mkDF cols us ts f g).rows = mkRows us ts f g from rfl, mkRows_map_time,
    flatMap_const_toFinset us ts hus, List.toFinset_card_of_nodup hnd]

theorem periodsPre_mkDF (cols : List String) (us : List String) (ts : List Int)
    (f : String → Int → ℚ) (g : String → Int → List ℚ) (tp : Int)
    (hus : us ≠ []) (hnd : ts.Nodup) :
    periodsPre (mkDF cols us ts f g) tp = (ts.filter (fun t => t < tp)).length := by
  unfold periodsPre
  rw [show (mkDF cols us ts f g).rows = mkRows us ts f g from rfl,
    mkRows_filter_time, mkRows_map_time, flatMap_const_toFinset us _ hus,
    List.toFinset_card_of_nodup (List.Nodup.filter _ hnd)]

theorem nControls_mkDF (cols : List String) (us : List String) (ts : List Int)
    (f : String → Int → ℚ) (g : String → Int → List ℚ)
    (hts : ts ≠ []) (hnd : us.Nodup) :
    nControls (mkDF cols us ts f g) = (us.length : Int) - 1 := by
  unfold nControls
  rw [show (mkDF cols us ts f g).rows = mkRows us ts f g from rfl,
    mkRows_id_toFinset us ts f g hts, List.toFinset_card_of_nodup hnd]

/-- Full evaluation of `Synth._process_input_data` on a rectangular panel
sorted by unit then time: ingestion succeeds and every field of the
resulting store is explicit. -/
theorem process_input_data_eval (cols : List String) (us : List String) (ts : List Int)
    (f : String → Int → ℚ) (g : String → Int → List ℚ) (y idv tv : String)
    (tp : Int) (treated : String)
    (hts : ts ≠ []) (hnd : ts.Nodup) (hU : us.Nodup) (hMem : treated ∈ us)
    (hpre : ts.filter (fun t => t < tp) ≠ []) :
    process_input_data (mkDF cols us ts f g) y idv tv tp treated
      = .ok ⟨mkDF cols us ts f g,
        covariateCols (mkDF cols us ts f g) y idv tv,
        ts.length,
        (ts.filter (fun t => t < tp)).length,
        (us.length : Int) - 1,
        (covariateCols (mkDF cols us ts f g) y idv tv).length,
        ⟨ts.length, 1, ts.map (fun t => [f treated t])⟩,
        ⟨(ts.filter (fun t => t < tp)).length, 1,
          (ts.filter (fun t => t < tp)).map (fun t => [f treated t])⟩,
        ⟨(covariateCols (mkDF cols us ts f g) y idv tv).length, 1,
          (List.range (covariateCols (mkDF cols us ts f g) y idv tv).length).map (fun j =>
            [mean ((ts.filter (fun t => t < tp)).map (fun t => (g treated t).getD j 0))])⟩,
        (Mat.mk (us.filter (fun u => ¬ u = treated)).length ts.length
          ((us.filter (fun u => ¬ u = treated)).map (fun u => ts.map (f u)))).transpose,
        (Mat.mk (us.filter (fun u => ¬ u = treated)).length
          (ts.filter (fun t => t < tp)).length
          ((us.filter (fun u => ¬ u = treated)).map
            (fun u => (ts.filter (fun t => t < tp)).map (f u)))).transpose,
        (Mat.mk (us.filter (fun u => ¬ u = treated)).length
          (covariateCols (mkDF cols us ts f g) y idv tv).length
          ((us.filter (fun u => ¬ u = treated)).map
            (fun u => (List.range (covariateCols (mkDF cols us ts f g) y idv tv).length).map
              (fun j => mean ((ts.filter (fun t => t < tp)).map
                (fun t => (g u t).getD j 0)))))).transpose⟩ := by
  have hus : us ≠ [] := List.ne_nil_of_mem hMem
  have hctrl : (((us.filter (fun u => ¬ u = treated)).length : Nat) : Int)
      = (us.length : Int) - 1 := by
    have h1 := filter_ne_length us treated hU hMem
    have h2 : 0 < us.length := List.length_pos.mpr hus
    omega
  unfold process_input_data
  simp only [periodsAll_mkDF cols us ts f g hus hnd,
    periodsPre_mkDF cols us ts f g tp hus hnd,
    nControls_mkDF cols us ts f g hts hU, ← hctrl,
    process_treated_eval cols us ts f g tp treated
      ((covariateCols (mkDF cols us ts f g) y idv tv).length) hU hMem,
    process_control_eval cols us ts f g tp treated
      ((covariateCols (mkDF cols us ts f g) y idv tv).length) hpre]
  rfl

theorem transpose_mk_entries {α : Type} (p : Nat) (ls : List α) (bl : α → List ℚ) :
    (Mat.mk ls.length p (ls.map bl)).transpose
      = ⟨p, ls.length, (List.range p).map (fun j => ls.map (fun u => (bl u).getD j 0))⟩ := by
  unfold Mat.transpose
  refine congrArg (Mat.mk _ _) (List.map_congr_left ?_)
  intro j _
  rw [List.map_map]
  rfl

theorem transpose_mk_range_entries {α : Type} (K : Nat) (ls : List α) (msel : α → Nat → ℚ) :
    (Mat.mk ls.length K (ls.map (fun u => (List.range K).map (fun j => msel u j)))).transpose
      = ⟨K, ls.length, (List.range K).map (fun j => ls.map (fun u => msel u j))⟩ := by
  rw [transpose_mk_entries]
  refine congrArg (Mat.mk _ _) (List.map_congr_left ?_)
  intro j hj
  refine List.map_congr_left ?_
  intro u _
  exact getD_range_map K j _ (List.mem_range.mp hj)

theorem take_of_take_eq {α β : Type} (ts pre : List α) (n : Nat) (h : pre = ts.take n)
    (F : α → β) : pre.map F = (ts.map F).take n := by
  rw [h, List.map_take]

theorem range_map_take {β : Type} (m n : Nat) (F : Nat → β) (h : m ≤ n) :
    ((List.range n).map F).take m = (List.range m).map F := by
  rw [← List.map_take, List.take_range, Nat.min_eq_left h]

theorem getD_take (l : List ℚ) (n j : Nat) (hj : j < n) :
    (l.take n).getD j 0 = l.getD j 0 := by
  rw [List.getD_eq_getElem?_getD, List.getD_eq_getElem?_getD, List.getElem?_take, if_pos hj]

/-! ### Example panel: 1 treated + 3 controls, 8 periods (5 pre-treatment), 2 covariates -/

def exCols : List String := ["ID", "Time", "y", "x0", "x1"]

def exUnits : List String := ["A", "B", "C", "D"]

def exTimes : List Int := [0, 1, 2, 3, 4, 5, 6, 7]

def exOutcome : String → Int → ℚ := fun u t => (u.length : ℚ) + t

def exCovs : String → Int → List ℚ := fun u t => [(t : ℚ), (u.length : ℚ) * 2]

def exdf : DataFrame := mkDF exCols exUnits exTimes exOutcome exCovs

/-! ### Claims -/

/-- C1: for every rectangular panel sorted by unit then time (with at least
one pre-treatment period), ingestion produces matrices of the exact shapes:
Z1 is (periods_pre × 1), Z0 is (periods_pre × n_controls), X1 is
(n_covariates × 1), X0 is (n_covariates × n_controls), and the all-period
outcome matrices are (periods_all × 1) and (periods_all × n_controls),
where periods_all = number of periods, periods_pre = number of periods
before the treatment period, and n_controls = number of units minus one. -/
theorem C1_ingestion_shapes (cols : List String) (us : List String) (ts : List Int)
    (f : String → Int → ℚ) (g : String → Int → List ℚ) (y idv tv : String)
    (tp : Int) (treated : String)
    (hs : ts.Sorted (· < ·)) (hts : ts ≠ []) (hU : us.Nodup) (hMem : treated ∈ us)
    (hpre : ts.filter (fun t => t < tp) ≠ []) :
    ∃ s, process_input_data (mkDF cols us ts f g) y idv tv tp treated = .ok s ∧
      s.periods_all = ts.length ∧
      s.periods_pre_treatment = (ts.filter (fun t => t < tp)).length ∧
      s.n_controls = (us.length : Int) - 1 ∧
      s.n_covariates = (covariateCols (mkDF cols us ts f g) y idv tv).length ∧
      s.treated_outcome.nrows = (ts.filter (fun t => t < tp)).length ∧
      s.treated_outcome.ncols = 1 ∧
      s.control_outcome.nrows = (ts.filter (fun t => t < tp)).length ∧
      s.control_outcome.ncols = us.length - 1 ∧
      s.treated_covariates.nrows = (covariateCols (mkDF cols us ts f g) y idv tv).length ∧
      s.treated_covariates.ncols = 1 ∧
      s.control_covariates.nrows = (covariateCols (mkDF cols us ts f g) y idv tv).length ∧
      s.control_covariates.ncols = us.length - 1 ∧
      s.treated_outcome_all.nrows = ts.length ∧
      s.treated_outcome_all.ncols = 1 ∧
      s.control_outcome_all.nrows = ts.length ∧
      s.control_outcome_all.ncols = us.length - 1 := by
  have hc : (us.filter (fun u => ¬ u = treated)).length = us.length - 1 :=
    filter_ne_length us treated hU hMem
  exact ⟨_, process_input_data_eval cols us ts f g y idv tv tp treated hts hs.nodup hU hMem hpre,
    rfl, rfl, rfl, rfl, rfl, rfl, rfl, hc, rfl, rfl, rfl, hc, rfl, rfl, rfl, hc⟩

/-- Witness for C1: on the concrete panel with n_controls = 3, periods_pre = 5,
periods_all = 8 and K = 2 covariates, the shapes are exactly (5×1), (5×3),
(2×1), (2×3), (8×1), (8×3). -/
theorem C1_ingestion_shapes_witness :
    ∃ s, process_input_data exdf "y" "ID" "Time" 5 "A" = .ok s ∧
      s.treated_outcome.nrows = 5 ∧ s.treated_outcome.ncols = 1 ∧
      s.control_outcome.nrows = 5 ∧ s.control_outcome.ncols = 3 ∧
      s.treated_covariates.nrows = 2 ∧ s.treated_covariates.ncols = 1 ∧
      s.control_covariates.nrows = 2 ∧ s.control_covariates.ncols = 3 ∧
      s.treated_outcome_all.nrows = 8 ∧ s.treated_outcome_all.ncols = 1 ∧
      s.control_outcome_all.nrows = 8 ∧ s.control_outcome_all.ncols = 3 := by
  obtain ⟨s, hok, h1, h2, h3, h4, h5, h6, h7, h8, h9, h10, h11, h12, h13, h14, h15, h16⟩ :=
    C1_ingestion_shapes exCols exUnits exTimes exOutcome exCovs "y" "ID" "Time" 5 "A"
      (by decide) (by decide) (by decide) (by decide) (by decide)
  exact ⟨s, hok, h5.trans (by decide), h6, h7.trans (by decide), h8.trans (by decide),
    h9.trans (by decide), h10, h11.trans (by decide), h12.trans (by decide),
    h13.trans (by decide), h14, h15.trans (by decide), h16.trans (by decide)⟩

/-- C5: for every rectangular sorted panel (with at least one pre-treatment
period), X1 holds, for each covariate, its mean over the treated unit's
pre-treatment rows; X0 holds, per control unit, the mean of each covariate
over that unit's pre-treatment rows (one column per control unit, grouped
from every periods_pre consecutive pre-treatment control rows), a
(K × n_controls) matrix whose column order (the filtered unit list) is the
same one that indexes the columns of Z0. -/
theorem C5_covariate_means (cols : List String) (us : List String) (ts : List Int)
    (f : String → Int → ℚ) (g : String → Int → List ℚ) (y idv tv : String)
    (tp : Int) (treated : String)
    (hs : ts.Sorted (· < ·)) (hts : ts ≠ []) (hU : us.Nodup) (hMem : treated ∈ us)
    (hpre : ts.filter (fun t => t < tp) ≠ []) :
    ∃ s, process_input_data (mkDF cols us ts f g) y idv tv tp treated = .ok s ∧
      s.treated_covariates.entries
        = (List.range (covariateCols (mkDF cols us ts f g) y idv tv).length).map
            (fun j => [mean ((ts.filter (fun t => t < tp)).map
              (fun t => (g treated t).getD j 0))]) ∧
      s.control_covariates.nrows = (covariateCols (mkDF cols us ts f g) y idv tv).length ∧
      s.control_covariates.ncols = us.length - 1 ∧
      s.control_covariates.entries
        = (List.range (covariateCols (mkDF cols us ts f g) y idv tv).length).map
            (fun j => (us.filter (fun u => ¬ u = treated)).map
              (fun u => mean ((ts.filter (fun t => t < tp)).map
                (fun t => (g u t).getD j 0)))) ∧
      s.control_outcome.entries
        = (List.range (ts.filter (fun t => t < tp)).length).map
            (fun i => (us.filter (fun u => ¬ u = treated)).map
              (fun u => ((ts.filter (fun t => t < tp)).map (f u)).getD i 0)) := by
  have hc : (us.filter (fun u => ¬ u = treated)).length = us.length - 1 :=
    filter_ne_length us treated hU hMem
  refine ⟨_, process_input_data_eval cols us ts f g y idv tv tp treated hts hs.nodup hU hMem hpre,
    rfl, ?_, ?_, ?_, ?_⟩
  · rfl
  · exact hc
  · exact congrArg Mat.entries (transpose_mk_range_entries _ _ _)
  · exact congrArg Mat.entries (transpose_mk_entries _ _ _)

/-- Witness for C5: on the concrete example panel the covariate means are
computed explicitly: every pre-treatment mean of covariate x0 (the time
value over periods 0..4) is 2, and of covariate x1 is 2 for every unit. -/
theorem C5_covariate_means_witness :
    ∃ s, process_input_data exdf "y" "ID" "Time" 5 "A" = .ok s ∧
      s.treated_covariates.entries = [[2], [2]] ∧
      s.control_covariates.entries = [[2, 2, 2], [2, 2, 2]] := by
  obtain ⟨s, hok, h1, h2, h3, h4, h5⟩ :=
    C5_covariate_means exCols exUnits exTimes exOutcome exCovs "y" "ID" "Time" 5 "A"
      (by decide) (by decide) (by decide) (by decide) (by decide)
  have hK : (covariateCols (mkDF exCols exUnits exTimes exOutcome exCovs) "y" "ID" "Time").length
      = 2 := by decide
  have hA : "A".length = 1 := rfl
  have hB : "B".length = 1 := rfl
  have hC : "C".length = 1 := rfl
  have hD : "D".length = 1 := rfl
  have hf : (exUnits.filter (fun u => !decide (u = "A"))) = ["B", "C", "D"] := by decide
  refine ⟨s, hok, h1.trans ?_, h4.trans ?_⟩
  · rw [hK]
    norm_num [mean, exCovs, exTimes, List.range_succ, hA]
  · rw [hK]
    norm_num [mean, exCovs, exTimes, List.range_succ, hf, hB, hC, hD]

/-- C10: for every rectangular panel sorted by unit then time with at least
one pre-treatment period, the pre-treatment outcome matrices are the front
rows of the all-period ones: Z1 equals the first periods_pre_treatment rows
of treated_outcome_all, and Z0 equals the first periods_pre_treatment rows
of control_outcome_all, with the same column count (unit order). -/
theorem C10_pre_rows_front (cols : List String) (us : List String) (ts : List Int)
    (f : String → Int → ℚ) (g : String → Int → List ℚ) (y idv tv : String)
    (tp : Int) (treated : String)
    (hs : ts.Sorted (· < ·)) (hts : ts ≠ []) (hU : us.Nodup) (hMem : treated ∈ us)
    (hpre : ts.filter (fun t => t < tp) ≠ []) :
    ∃ s, process_input_data (mkDF cols us ts f g) y idv tv tp treated = .ok s ∧
      s.treated_outcome.entries
        = s.treated_outcome_all.entries.take s.periods_pre_treatment ∧
      s.control_outcome.entries
        = s.control_outcome_all.entries.take s.periods_pre_treatment ∧
      s.control_outcome.ncols = s.control_outcome_all.ncols := by
  have htake : ts.filter (fun t => t < tp)
      = ts.take ((ts.filter (fun t => t < tp)).length) := sorted_filter_take ts tp hs
  have hle : (ts.filter (fun t => t < tp)).length ≤ ts.length := List.length_filter_le _ _
  refine ⟨_, process_input_data_eval cols us ts f g y idv tv tp treated hts hs.nodup hU hMem hpre,
    ?_, ?_, rfl⟩
  · exact take_of_take_eq ts _ _ htake _
  · rw [congrArg Mat.entries (transpose_mk_entries ts.length
        (us.filter (fun u => ¬ u = treated)) (fun u => ts.map (f u))),
      congrArg Mat.entries (transpose_mk_entries (ts.filter (fun t => t < tp)).length
        (us.filter (fun u => ¬ u = treated)) (fun u => (ts.filter (fun t => t < tp)).map (f u)))]
    rw [range_map_take _ _ _ hle]
    refine List.map_congr_left ?_
    intro j hj
    refine List.map_congr_left ?_
    intro u _
    rw [take_of_take_eq ts (ts.filter (fun t => t < tp)) _ htake (f u)]
    exact getD_take _ _ _ (List.mem_range.mp hj)

/-- Witness for C10: on the concrete example panel, Z1 and Z0 are the first
5 rows of the all-period outcome matrices. -/
theorem C10_pre_rows_front_witness :
    ∃ s, process_input_data exdf "y" "ID" "Time" 5 "A" = .ok s ∧
      s.treated_outcome.entries
        = s.treated_outcome_all.entries.take s.periods_pre_treatment ∧
      s.control_outcome.entries
        = s.control_outcome_all.entries.take s.periods_pre_treatment ∧
      s.control_outcome.ncols = s.control_outcome_all.ncols :=
  C10_pre_rows_front exCols exUnits exTimes exOutcome exCovs "y" "ID" "Time" 5 "A"
    (by decide) (by decide) (by decide) (by decide) (by decide)

/-! ### Failure characterization of ingestion -/

theorem isOk_ok {γ α : Type} (a : α) : (Except.ok a : Except γ α).isOk = true := rfl

theorem isOk_error {γ α : Type} (e : γ) : (Except.error e : Except γ α).isOk = false := rfl

theorem isOk_pure {γ α : Type} (a : α) : (pure a : Except γ α).isOk = true := rfl

theorem bind_ok_eq {γ α β : Type} (a : α) (f : α → Except γ β) :
    (Bind.bind (Except.ok a : Except γ α) f) = f a := rfl

theorem bind_err_eq {γ α β : Type} (e : γ) (f : α → Except γ β) :
    (Bind.bind (Except.error e : Except γ α) f) = Except.error e := rfl

theorem reshape2_col_err (xs : List ℚ) (r : Nat) (h : ¬ xs.length = r) :
    reshape2 xs (r : Int) 1 = .error "ValueError: cannot reshape" := by
  unfold reshape2
  rw [if_neg (by omega), if_neg (by omega), if_neg]
  rintro ⟨-, -, hh⟩
  exact h (by simpa using hh)

theorem reshape2_int_err (xs : List ℚ) (n : Int) (p : Nat) (hn : 0 ≤ n)
    (h : ¬ xs.length = n.toNat * p) :
    reshape2 xs n (p : Int) = .error "ValueError: cannot reshape" := by
  unfold reshape2
  rw [if_neg (by omega), if_neg (by omega), if_neg]
  rintro ⟨-, -, hh⟩
  exact h (by simpa using hh)

theorem colMeans_length (k : Nat) (rows : List Row) : (colMeans k rows).length = k := by
  unfold colMeans
  simp

theorem process_treated_isOk (df : DataFrame) (tp : Int) (treated : String)
    (pa pp K : Nat) :
    (process_treated_data df tp treated pa pp K).isOk = true ↔
      ((df.rows.filter (fun r => r.id = treated)).length = pa ∧
        ((df.rows.filter (fun r => r.id = treated)).filter (fun r => r.time < tp)).length
          = pp) := by
  by_cases h1 : (df.rows.filter (fun r => r.id = treated)).length = pa
  · by_cases h2 : ((df.rows.filter (fun r => r.id = treated)).filter
        (fun r => r.time < tp)).length = pp
    · simp only [process_treated_data,
        reshape2_col_ok ((df.rows.filter (fun r => r.id = treated)).map Row.outcome) pa
          (by simpa using h1),
        bind_ok_eq,
        reshape2_col_ok (((df.rows.filter (fun r => r.id = treated)).filter
            (fun r => r.time < tp)).map Row.outcome) pp (by simpa using h2),
        reshape2_col_ok (colMeans K ((df.rows.filter (fun r => r.id = treated)).filter
            (fun r => r.time < tp))) K (colMeans_length K _)]
      rw [isOk_pure]
      exact iff_of_true rfl ⟨h1, h2⟩
    · simp only [process_treated_data,
        reshape2_col_ok ((df.rows.filter (fun r => r.id = treated)).map Row.outcome) pa
          (by simpa using h1),
        bind_ok_eq,
        reshape2_col_err (((df.rows.filter (fun r => r.id = treated)).filter
            (fun r => r.time < tp)).map Row.outcome) pp (by simpa using h2),
        bind_err_eq]
      rw [isOk_error]
      exact iff_of_false (by simp) (fun hh => h2 hh.2)
  · simp only [process_treated_data,
      reshape2_col_err ((df.rows.filter (fun r => r.id = treated)).map Row.outcome) pa
        (by simpa using h1),
      bind_err_eq]
    rw [isOk_error]
    exact iff_of_false (by simp) (fun hh => h1 hh.1)

theorem process_control_isOk (df : DataFrame) (tp : Int) (treated : String)
    (n : Int) (pa pp K : Nat) (hn : 0 ≤ n) :
    (process_control_data df tp treated n pa pp K).isOk = true ↔
      ((df.rows.filter (fun r => ¬ r.id = treated)).length = n.toNat * pa ∧
        ((df.rows.filter (fun r => ¬ r.id = treated)).filter (fun r => r.time < tp)).length
          = n.toNat * pp) := by
  by_cases h1 : (df.rows.filter (fun r => ¬ r.id = treated)).length = n.toNat * pa
  · by_cases h2 : ((df.rows.filter (fun r => ¬ r.id = treated)).filter
        (fun r => r.time < tp)).length = n.toNat * pp
    · simp only [process_control_data,
        reshape2_int_ok ((df.rows.filter (fun r => ¬ r.id = treated)).map Row.outcome) n pa hn
          (by simpa using h1),
        bind_ok_eq,
        reshape2_int_ok (((df.rows.filter (fun r => ¬ r.id = treated)).filter
            (fun r => r.time < tp)).map Row.outcome) n pp hn (by simpa using h2)]
      rw [isOk_pure]
      exact iff_of_true rfl ⟨h1, h2⟩
    · simp only [process_control_data,
        reshape2_int_ok ((df.rows.filter (fun r => ¬ r.id = treated)).map Row.outcome) n pa hn
          (by simpa using h1),
        bind_ok_eq,
        reshape2_int_err (((df.rows.filter (fun r => ¬ r.id = treated)).filter
            (fun r => r.time < tp)).map Row.outcome) n pp hn (by simpa using h2),
        bind_err_eq]
      rw [isOk_error]
      exact iff_of_false (by simp) (fun hh => h2 hh.2)
  · simp only [process_control_data,
      reshape2_int_err ((df.rows.filter (fun r => ¬ r.id = treated)).map Row.outcome) n pa hn
        (by simpa using h1),
      bind_err_eq]
    rw [isOk_error]
    exact iff_of_false (by simp) (fun hh => h1 hh.1)

/-- Shared characterization: whenever the dataset has at least one unit,
ingestion succeeds exactly when the four numpy reshape size checks pass
(treated rows = periods_all, treated pre-treatment rows = periods_pre,
control rows = n_controls * periods_all, control pre-treatment rows =
n_controls * periods_pre). -/
theorem ingest_isOk_iff (df : DataFrame) (y idv tv : String) (tp : Int)
    (treated : String) (h : 0 < (df.rows.map Row.id).toFinset.card) :
    (process_input_data df y idv tv tp treated).isOk = true ↔
      ((df.rows.filter (fun r => r.id = treated)).length = periodsAll df ∧
        ((df.rows.filter (fun r => r.id = treated)).filter (fun r => r.time < tp)).length
          = periodsPre df tp ∧
        (df.rows.filter (fun r => ¬ r.id = treated)).length
          = (nControls df).toNat * periodsAll df ∧
        ((df.rows.filter (fun r => ¬ r.id = treated)).filter (fun r => r.time < tp)).length
          = (nControls df).toNat * periodsPre df tp) := by
  have hn : 0 ≤ nControls df := by
    unfold nControls
    omega
  have hpt := process_treated_isOk df tp treated (periodsAll df) (periodsPre df tp)
    ((covariateCols df y idv tv).length)
  have hpc := process_control_isOk df tp treated (nControls df) (periodsAll df)
    (periodsPre df tp) ((covariateCols df y idv tv).length) hn
  simp only [process_input_data]
  cases hPT : process_treated_data df tp treated (periodsAll df) (periodsPre df tp)
      ((covariateCols df y idv tv).length) with
  | error e =>
    rw [hPT, isOk_error] at hpt
    simp only [hPT, bind_err_eq, isOk_error]
    refine iff_of_false (by simp) ?_
    rintro ⟨a, b, -, -⟩
    have hcon := hpt.mpr ⟨a, b⟩
    simp at hcon
  | ok t =>
    rw [hPT, isOk_ok] at hpt
    obtain ⟨a, b⟩ := hpt.mp rfl
    obtain ⟨t1, t2, t3⟩ := t
    simp only [hPT, bind_ok_eq]
    cases hPC : process_control_data df tp treated (nControls df) (periodsAll df)
        (periodsPre df tp) ((covariateCols df y idv tv).length) with
    | error e2 =>
      rw [hPC, isOk_error] at hpc
      simp only [hPC, bind_err_eq, isOk_error]
      refine iff_of_false (by simp) ?_
      rintro ⟨-, -, c, d⟩
      have hcon := hpc.mpr ⟨c, d⟩
      simp at hcon
    | ok c =>
      rw [hPC, isOk_ok] at hpc
      obtain ⟨c1, c2⟩ := hpc.mp rfl
      obtain ⟨x1, x2, x3⟩ := c
      simp only [hPC, bind_ok_eq]
      rw [isOk_pure]
      exact iff_of_true rfl ⟨a, b, c1, c2⟩

/-- A rectangular panel with an empty covariate set: only the id, time and
outcome columns are present. -/
def dfNoCov : DataFrame :=
  mkDF ["ID", "Time", "y"] ["A", "B"] [0, 1] (fun _ _ => 0) (fun _ _ => [])

/-- Counterexample to C2 as stated: this panel has an empty covariate set
(a listed MalformedPanelError condition), yet ingestion succeeds — the code
defines no MalformedPanelError and performs no covariate-set check. -/
theorem C2_counterexample :
    covariateCols dfNoCov "y" "ID" "Time" = [] ∧
      (process_input_data dfNoCov "y" "ID" "Time" 1 "A").isOk = true := by
  decide

/-- C2 (amended): the code defines no MalformedPanelError; ingestion fails
(with a numpy reshape ValueError) exactly when one of the four reshape size
checks fails: treated rows ≠ periods_all, treated pre-treatment rows ≠
periods_pre, control rows ≠ n_controls·periods_all, or control
pre-treatment rows ≠ n_controls·periods_pre (for any dataset with at least
one unit).  A panel missing the treated id therefore fails whenever
periods_all > 0, but an empty covariate set or a treatment period outside
the observed range does not by itself cause a failure. -/
theorem C2_reshape_failure_iff (df : DataFrame) (y idv tv : String) (tp : Int)
    (treated : String) (h : 0 < (df.rows.map Row.id).toFinset.card) :
    (process_input_data df y idv tv tp treated).isOk = true ↔
      ((df.rows.filter (fun r => r.id = treated)).length = periodsAll df ∧
        ((df.rows.filter (fun r => r.id = treated)).filter (fun r => r.time < tp)).length
          = periodsPre df tp ∧
        (df.rows.filter (fun r => ¬ r.id = treated)).length
          = (nControls df).toNat * periodsAll df ∧
        ((df.rows.filter (fun r => ¬ r.id = treated)).filter (fun r => r.time < tp)).length
          = (nControls df).toNat * periodsPre df tp) :=
  ingest_isOk_iff df y idv tv tp treated h

/-- Witness for C2 (amended): a panel whose treated id "Z" is absent fails
ingestion (its treated row count 0 differs from periods_all = 8), per the
mp direction of the characterization at a concrete panel. -/
theorem C2_reshape_failure_iff_witness :
    (process_input_data exdf "y" "ID" "Time" 5 "Z").isOk = false := by
  have hiff := C2_reshape_failure_iff exdf "y" "ID" "Time" 5 "Z" (by decide)
  have hcond : ¬ ((exdf.rows.filter (fun r => r.id = "Z")).length = periodsAll exdf ∧
      ((exdf.rows.filter (fun r => r.id = "Z")).filter (fun r => r.time < 5)).length
        = periodsPre exdf 5 ∧
      (exdf.rows.filter (fun r => ¬ r.id = "Z")).length
        = (nControls exdf).toNat * periodsAll exdf ∧
      ((exdf.rows.filter (fun r => ¬ r.id = "Z")).filter (fun r => r.time < 5)).length
        = (nControls exdf).toNat * periodsPre exdf 5) := by
    intro hc
    have h0 : (exdf.rows.filter (fun r => r.id = "Z")).length = 0 := by decide
    have h8 : periodsAll exdf = 8 := by decide
    rw [h0, h8] at hc
    exact absurd hc.1 (by decide)
  have := (not_iff_not.mpr hiff).mpr hcond
  simpa using this

/-- A non-rectangular panel whose control row total still factors: control
unit "B" has 7 rows and "C" has 9 (a duplicated period), total 16 = 2 × 8. -/
def dfUneven : DataFrame :=
  ⟨["ID", "Time", "y", "x0"],
    (List.range 8).map (fun t => ⟨"A", (t : Int) + 1, (t : ℚ), [1]⟩) ++
    ((List.range 7).map (fun t => ⟨"B", (t : Int) + 1, (t : ℚ) + 10, [2]⟩) ++
      ((List.range 8).map (fun t => ⟨"C", (t : Int) + 1, (t : ℚ) + 20, [3]⟩) ++
        [⟨"C", 8, 99, [3]⟩]))⟩

/-- Counterexample to C3 as stated: in this panel the control rows do not
decompose into n_controls = 2 groups of periods_all = 8 rows per unit
(unit "B" has 7 rows, unit "C" has 9), yet the total 16 = 2 × 8 means the
reshape succeeds and ingestion silently accepts the non-rectangular panel. -/
theorem C3_counterexample :
    (dfUneven.rows.filter (fun r => r.id = "B")).length = 7 ∧
      (dfUneven.rows.filter (fun r => r.id = "C")).length = 9 ∧
      periodsAll dfUneven = 8 ∧
      nControls dfUneven = 2 ∧
      (dfUneven.rows.filter (fun r => ¬ r.id = "A")).length = 16 ∧
      (process_input_data dfUneven "y" "ID" "Time" 9 "A").isOk = true := by
  decide

/-- C3 (amended): ingestion checks only the total control row counts: when
it succeeds (and the dataset has at least one unit), the control rows number
exactly n_controls·periods_all and the control pre-treatment rows exactly
n_controls·periods_pre; any remainder is detected as a fatal reshape error,
but uneven per-unit group sizes with a matching total are silently
reshaped. -/
theorem C3_total_count_check (df : DataFrame) (y idv tv : String) (tp : Int)
    (treated : String) (h : 0 < (df.rows.map Row.id).toFinset.card)
    (hOk : (process_input_data df y idv tv tp treated).isOk = true) :
    (df.rows.filter (fun r => ¬ r.id = treated)).length
        = (nControls df).toNat * periodsAll df ∧
      ((df.rows.filter (fun r => ¬ r.id = treated)).filter (fun r => r.time < tp)).length
        = (nControls df).toNat * periodsPre df tp := by
  have hc := (ingest_isOk_iff df y idv tv tp treated h).mp hOk
  exact ⟨hc.2.2.1, hc.2.2.2⟩

/-- Witness for C3 (amended): at the concrete example panel the control row
totals factor exactly as 3 controls × 8 periods and 3 controls × 5
pre-treatment periods. -/
theorem C3_total_count_check_witness :
    (exdf.rows.filter (fun r => ¬ r.id = "A")).length
        = (nControls exdf).toNat * periodsAll exdf ∧
      ((exdf.rows.filter (fun r => ¬ r.id = "A")).filter (fun r => r.time < 5)).length
        = (nControls exdf).toNat * periodsPre exdf 5 :=
  C3_total_count_check exdf "y" "ID" "Time" 5 "A" (by decide) (by decide)

/-! ### Store-field inversion and the remaining ingestion claims -/

theorem process_input_data_ok_fields (df : DataFrame) (y idv tv : String) (tp : Int)
    (treated : String) (s : SynthData)
    (h : process_input_data df y idv tv tp treated = .ok s) :
    s.dataset = df ∧ s.covariates = covariateCols df y idv tv ∧
      s.periods_all = periodsAll df ∧ s.periods_pre_treatment = periodsPre df tp ∧
      s.n_controls = nControls df ∧ s.n_covariates = (covariateCols df y idv tv).length := by
  simp only [process_input_data] at h
  cases hPT : process_treated_data df tp treated (periodsAll df) (periodsPre df tp)
      ((covariateCols df y idv tv).length) with
  | error e =>
    rw [hPT, bind_err_eq] at h
    cases h
  | ok t =>
    obtain ⟨t1, t2, t3⟩ := t
    rw [hPT, bind_ok_eq] at h
    cases hPC : process_control_data df tp treated (nControls df) (periodsAll df)
        (periodsPre df tp) ((covariateCols df y idv tv).length) with
    | error e2 =>
      rw [hPC, bind_err_eq] at h
      cases h
    | ok c =>
      obtain ⟨c1, c2, c3⟩ := c
      rw [hPC, bind_ok_eq] at h
      injection h with h2
      subst h2
      exact ⟨rfl, rfl, rfl, rfl, rfl, rfl⟩

/-- C4: for every dataset, the store returned by ingestion carries the
dimension scalars derived as: periods_all = number of distinct time values;
periods_pre_treatment = number of distinct time values strictly below the
treatment period; n_controls = number of distinct id values minus one;
n_covariates = number of columns other than the outcome, id and time
columns, in source order; and periods_pre_treatment ≤ periods_all. -/
theorem C4_dimension_scalars (df : DataFrame) (y idv tv : String) (tp : Int)
    (treated : String) (s : SynthData)
    (h : process_input_data df y idv tv tp treated = .ok s) :
    s.periods_all = (df.rows.map Row.time).toFinset.card ∧
      s.periods_pre_treatment
        = ((df.rows.filter (fun r => r.time < tp)).map Row.time).toFinset.card ∧
      s.n_controls = ((df.rows.map Row.id).toFinset.card : Int) - 1 ∧
      s.n_covariates
        = (df.columns.filter (fun c => ¬ (c = y ∨ c = idv ∨ c = tv))).length ∧
      s.periods_pre_treatment ≤ s.periods_all := by
  obtain ⟨-, -, h3, h4, h5, h6⟩ := process_input_data_ok_fields df y idv tv tp treated s h
  refine ⟨h3, h4, h5, h6, ?_⟩
  rw [h3, h4]
  unfold periodsPre periodsAll
  refine Finset.card_le_card ?_
  intro x hx
  rw [List.mem_toFinset] at hx ⊢
  obtain ⟨r, hr, he⟩ := List.mem_map.mp hx
  exact List.mem_map.mpr ⟨r, (List.filter_sublist df.rows).subset hr, he⟩

/-- Witness for C4: the concrete example panel has 8 periods, 5 of them
pre-treatment, 3 controls and 2 covariates. -/
theorem C4_dimension_scalars_witness :
    ∃ s, process_input_data exdf "y" "ID" "Time" 5 "A" = .ok s ∧
      s.periods_all = 8 ∧ s.periods_pre_treatment = 5 ∧
      s.n_controls = 3 ∧ s.n_covariates = 2 := by
  have hOk : (process_input_data exdf "y" "ID" "Time" 5 "A").isOk = true := by decide
  cases hh : process_input_data exdf "y" "ID" "Time" 5 "A" with
  | error e =>
    rw [hh, isOk_error] at hOk
    cases hOk
  | ok s =>
    obtain ⟨h1, h2, h3, h4, h5⟩ := C4_dimension_scalars exdf "y" "ID" "Time" 5 "A" s hh
    exact ⟨s, rfl, h1.trans (by decide), h2.trans (by decide), h3.trans (by decide),
      h4.trans (by decide)⟩

/-- C8: ingestion has no side effect on the input dataset: the store's
dataset field is the input dataset itself, unchanged (the embedding of
`_process_input_data` is a pure function of its arguments and every pandas
operation used allocates a new object). -/
theorem C8_input_dataset_unchanged (df : DataFrame) (y idv tv : String) (tp : Int)
    (treated : String) (s : SynthData)
    (h : process_input_data df y idv tv tp treated = .ok s) :
    s.dataset = df :=
  (process_input_data_ok_fields df y idv tv tp treated s h).1

/-- Witness for C8: at the concrete example panel, the stored dataset is the
input panel itself. -/
theorem C8_input_dataset_unchanged_witness :
    ∃ s, process_input_data exdf "y" "ID" "Time" 5 "A" = .ok s ∧ s.dataset = exdf := by
  have hOk : (process_input_data exdf "y" "ID" "Time" 5 "A").isOk = true := by decide
  cases hh : process_input_data exdf "y" "ID" "Time" 5 "A" with
  | error e =>
    rw [hh, isOk_error] at hOk
    cases hOk
  | ok s =>
    exact ⟨s, rfl, C8_input_dataset_unchanged exdf "y" "ID" "Time" 5 "A" s hh⟩

/-- C9: ingestion is deterministic and idempotent: two runs on the same
dataset and parameters produce identical stores — all six matrices and all
dimension scalars coincide (the embedding has no mutable state at all). -/
theorem C9_ingestion_deterministic (df : DataFrame) (y idv tv : String) (tp : Int)
    (treated : String) (s₁ s₂ : SynthData)
    (h₁ : process_input_data df y idv tv tp treated = .ok s₁)
    (h₂ : process_input_data df y idv tv tp treated = .ok s₂) :
    s₁.treated_outcome = s₂.treated_outcome ∧ s₁.control_outcome = s₂.control_outcome ∧
      s₁.treated_covariates = s₂.treated_covariates ∧
      s₁.control_covariates = s₂.control_covariates ∧
      s₁.treated_outcome_all = s₂.treated_outcome_all ∧
      s₁.control_outcome_all = s₂.control_outcome_all ∧ s₁ = s₂ := by
  have h := h₁.symm.trans h₂
  injection h with h
  subst h
  exact ⟨rfl, rfl, rfl, rfl, rfl, rfl, rfl⟩

/-- Witness for C9: determinism applied at the concrete example panel. -/
theorem C9_ingestion_deterministic_witness :
    ∃ s, process_input_data exdf "y" "ID" "Time" 5 "A" = .ok s ∧ s = s := by
  have hOk : (process_input_data exdf "y" "ID" "Time" 5 "A").isOk = true := by decide
  cases hh : process_input_data exdf "y" "ID" "Time" 5 "A" with
  | error e =>
    rw [hh, isOk_error] at hOk
    cases hOk
  | ok s =>
    exact ⟨s, rfl, (C9_ingestion_deterministic exdf "y" "ID" "Time" 5 "A" s s hh hh).2.2.2.2.2.2⟩

/-- C6 (code bug): `transform_data` can never return the de-meaned panel:
line 223 references the undefined name `data` (and hardcodes the "ID" and
"Time" column labels), so every call raises NameError instead of returning
a transformed dataset. -/
theorem C6_transform_data_raises (s : SynthData) :
    transform_data s = Except.error "NameError: name data is not defined" := rfl

/-! ### Simplex invariants of the modelled weight solver -/

theorem foldl_min_lt (f : Nat → ℚ) (n : Nat) (l : List Nat) (b : Nat)
    (hb : b < n) (hl : ∀ i ∈ l, i < n) :
    l.foldl (fun best i => if f i < f best then i else best) b < n := by
  induction l generalizing b with
  | nil => exact hb
  | cons x xs ih =>
    simp only [List.foldl_cons]
    refine ih _ ?_ (fun i hi => hl i (List.mem_cons_of_mem x hi))
    by_cases h : f x < f b
    · rw [if_pos h]
      exact hl x (List.mem_cons_self x xs)
    · rw [if_neg h]
      exact hb

theorem argminIdx_lt (f : Nat → ℚ) (n : Nat) (hn : 0 < n) : argminIdx f n < n := by
  unfold argminIdx
  exact foldl_min_lt f n (List.range n) 0 hn (fun i hi => List.mem_range.mp hi)

theorem fwStep_length (γ : ℚ) (iStar : Nat) :
    ∀ (ws : List ℚ) (i0 : Nat), (fwStep γ iStar i0 ws).length = ws.length := by
  intro ws
  induction ws with
  | nil => intro i0; rfl
  | cons w ws ih =>
    intro i0
    simp [fwStep, ih]

theorem fwStep_sum (γ : ℚ) (iStar : Nat) :
    ∀ (ws : List ℚ) (i0 : Nat), (fwStep γ iStar i0 ws).sum
      = (1 - γ) * ws.sum + (if i0 ≤ iStar ∧ iStar < i0 + ws.length then γ else 0) := by
  intro ws
  induction ws with
  | nil =>
    intro i0
    simp only [fwStep, List.sum_nil, List.length_nil]
    rw [if_neg (by omega)]
    ring
  | cons w ws ih =>
    intro i0
    simp only [fwStep, List.sum_cons, List.length_cons, ih (i0 + 1)]
    by_cases h : i0 = iStar
    · rw [if_pos h, if_neg (by omega), if_pos (by omega)]
      ring
    · rw [if_neg h]
      by_cases h2 : i0 + 1 ≤ iStar ∧ iStar < i0 + 1 + ws.length
      · rw [if_pos h2, if_pos (by omega)]
        ring
      · rw [if_neg h2, if_neg (by omega)]
        ring

theorem fwStep_nonneg (γ : ℚ) (iStar : Nat) (h0 : 0 ≤ γ) (h1 : γ ≤ 1) :
    ∀ (ws : List ℚ) (i0 : Nat), (∀ w ∈ ws, 0 ≤ w) →
      ∀ w ∈ fwStep γ iStar i0 ws, 0 ≤ w := by
  intro ws
  induction ws with
  | nil =>
    intro i0 _ w hw
    cases hw
  | cons x xs ih =>
    intro i0 hws w hw
    simp only [fwStep, List.mem_cons] at hw
    rcases hw with h | h
    · subst h
      have hx : 0 ≤ x := hws x (List.mem_cons_self x xs)
      have ha : 0 ≤ (1 - γ) * x := mul_nonneg (by linarith) hx
      have hb : (0:ℚ) ≤ if i0 = iStar then γ else 0 := by
        by_cases hi : i0 = iStar
        · rw [if_pos hi]
          exact h0
        · rw [if_neg hi]
      exact add_nonneg ha hb
    · exact ih (i0 + 1) (fun v hv => hws v (List.mem_cons_of_mem x hv)) w h

theorem foldl_fw_invariant (X1 : List ℚ) (X0 : List (List ℚ)) (V : List ℚ) (n : Nat)
    (hn : 0 < n) :
    ∀ (l : List Nat) (W : List ℚ), (∀ w ∈ W, 0 ≤ w) → W.sum = 1 → W.length = n →
      ((∀ w ∈ l.foldl (fun (W : List ℚ) (k : Nat) => fwStep (2 / ((k : ℚ) + 2))
          (argminIdx (gradW V X1 X0 W) n) 0 W) W, 0 ≤ w) ∧
        (l.foldl (fun (W : List ℚ) (k : Nat) => fwStep (2 / ((k : ℚ) + 2))
          (argminIdx (gradW V X1 X0 W) n) 0 W) W).sum = 1 ∧
        (l.foldl (fun (W : List ℚ) (k : Nat) => fwStep (2 / ((k : ℚ) + 2))
          (argminIdx (gradW V X1 X0 W) n) 0 W) W).length = n) := by
  intro l
  induction l with
  | nil =>
    intro W h1 h2 h3
    exact ⟨h1, h2, h3⟩
  | cons k ks ih =>
    intro W h1 h2 h3
    simp only [List.foldl_cons]
    have hγ0 : (0:ℚ) ≤ 2 / ((k : ℚ) + 2) := by positivity
    have hγ1 : 2 / ((k : ℚ) + 2) ≤ 1 := by
      rw [div_le_one (by positivity)]
      have hk : (0:ℚ) ≤ (k:ℚ) := Nat.cast_nonneg k
      linarith
    refine ih _ ?_ ?_ ?_
    · exact fwStep_nonneg _ _ hγ0 hγ1 W 0 h1
    · rw [fwStep_sum, h2, h3, if_pos ⟨Nat.zero_le _, by simpa using argminIdx_lt _ n hn⟩]
      ring
    · rw [fwStep_length, h3]

/-- C7: for every input (any covariate matrices, any diagonal importance
weights, any iteration budget) and any positive number of controls, the
donor weight vector produced by the modelled weight solver is a convex
combination: every component is non-negative and the components sum to
exactly 1, hence within every positive tolerance of 1. -/
theorem C7_weights_simplex (X1 : List ℚ) (X0 : List (List ℚ)) (V : List ℚ)
    (n iters : Nat) (hn : 0 < n) :
    (∀ w ∈ (solve_weights X1 X0 V n iters).1, 0 ≤ w) ∧
      (solve_weights X1 X0 V n iters).1.sum = 1 ∧
      ∀ ε : ℚ, 0 < ε → |(solve_weights X1 X0 V n iters).1.sum - 1| < ε := by
  have hne : ((n:ℚ)) ≠ 0 := Nat.cast_ne_zero.mpr hn.ne'
  have hrep1 : ∀ w ∈ List.replicate n ((1:ℚ) / (n:ℚ)), 0 ≤ w := by
    intro w hw
    rw [List.eq_of_mem_replicate hw]
    positivity
  have hrep2 : (List.replicate n ((1:ℚ) / (n:ℚ))).sum = 1 := by
    rw [List.sum_replicate, nsmul_eq_mul, mul_one_div, div_self hne]
  have hrep3 : (List.replicate n ((1:ℚ) / (n:ℚ))).length = n := List.length_replicate n _
  have hinv := foldl_fw_invariant X1 X0 V n hn (List.range iters)
    (List.replicate n ((1:ℚ) / (n:ℚ))) hrep1 hrep2 hrep3
  have hpos : ∀ w ∈ (solve_weights X1 X0 V n iters).1, 0 ≤ w := hinv.1
  have hsum : (solve_weights X1 X0 V n iters).1.sum = 1 := hinv.2.1
  refine ⟨hpos, hsum, ?_⟩
  intro ε hε
  rw [hsum]
  simpa using hε

/-- Witness for C7: a concrete solve with 3 controls, one covariate and two
Frank-Wolfe iterations yields non-negative weights whose sum is within
1/1000 of 1. -/
theorem C7_weights_simplex_witness :
    (∀ w ∈ (solve_weights [1] [[1, 2, 3]] [1] 3 2).1, 0 ≤ w) ∧
      |(solve_weights [1] [[1, 2, 3]] [1] 3 2).1.sum - 1| < 1 / 1000 := by
  have h := C7_weights_simplex [1] [[1, 2, 3]] [1] 3 2 (by norm_num)
  exact ⟨h.1, h.2.2 (1 / 1000) (by norm_num)⟩

end Synth
